import Mathlib

/-!
# Verification of the duplicate-file scanner

A shallow embedding of `src/main.py` (the staged duplicate-detection engine:
prefix-hash bucketing, full-hash confirmation, ranking, presentation) together
with theorems settling the specification claims.

Modelling conventions:
* File contents are `List Nat` (byte lists).
* The xxh128 digest is idealized as an injective (collision-free) function of
  the hashed bytes — the spec treats digest equality as authoritative for
  content equality — so a digest is represented by the hashed bytes themselves.
* An unreadable file is a file whose read yields `Except.error`; `IOError`
  values are represented by `String` messages.
* The GUI widgets are irrelevant to the engine; the observable outcome of
  `scan_directory` is modelled as a `ScanResult` carrying the displayed rows,
  the progress updates, and the total file count.
-/

namespace DupFinder

/-- A digest value.  Idealized: the digest of a byte list is the byte list
itself, making the hash injective (the spec accepts hash collisions as
negligible and treats full-digest equality as content equality). -/
abbrev Digest := List Nat

/-- The `xxh128` algorithm from the `xxhash` module, idealized (see `Digest`). -/
def xxh128 : List Nat → Digest := fun content => content

/-- `xxhashsum` (src/main.py lines 34-40): digest of the whole file content.
`hashlib.file_digest` streams the entire file into the algorithm. -/
def xxhashsum (algo : List Nat → Digest) (content : List Nat) : Digest :=
  algo content

/-- `xxprehashsum` (src/main.py lines 43-49): digest of the first `size` bytes.
`f.read(size)` returns at most `size` bytes — the whole file when it is
shorter — and exactly those bytes are hashed. -/
def xxprehashsum (algo : List Nat → Digest) (content : List Nat) (size : Nat) : Digest :=
  algo (content.take size)

/-- The default `size=8**6` argument of `xxprehashsum` (256 KiB). -/
def prehash_size : Nat := 8 ^ 6

/-- Renders `num / den` with exactly two decimal digits.  Idealizes Python's
`f"{num/den:.2f}"` by rounding the exact rational (half away from zero)
instead of going through IEEE doubles. -/
def fmt2 (num den : Nat) : String :=
  let cents := (200 * num + den) / (2 * den)
  toString (cents / 100) ++ "." ++
    (if cents % 100 < 10 then "0" ++ toString (cents % 100) else toString (cents % 100))

/-- `format_filesize` (src/main.py lines 52-62): human-readable size with unit
thresholds at powers of 1024.  The `B` branch is `f"{size} B"` — a plain
integer, no decimal digits; the remaining branches use `:.2f` (see `fmt2`). -/
def format_filesize (size : Nat) : String :=
  if size < 1024 then toString size ++ " B"
  else if size < 1024 ^ 2 then fmt2 size 1024 ++ " KB"
  else if size < 1024 ^ 3 then fmt2 size (1024 ^ 2) ++ " MB"
  else if size < 1024 ^ 4 then fmt2 size (1024 ^ 3) ++ " GB"
  else fmt2 size (1024 ^ 4) ++ " TB"

/-- A regular file as the walk yields it: a path relative to the scanned root
and the outcome of reading it (`Except.error` models an `IOError` raised on
open/read). -/
structure FSFile where
  path : String
  data : Except String (List Nat)

/-- The input environment of one `scan_directory` invocation: the string in
the `directory_text` widget, whether `os.path.isdir` holds, whether the root
directory can be listed, and the `os.walk` output (directories in walk order,
regular files per directory, paths already relative to the root). -/
structure ScanInput where
  directory_path : String
  is_dir : Bool
  readable : Bool
  walk : List (List FSFile)

/-- `os.walk` output actually observed: with the default `onerror=None`,
walking an unreadable root silently yields no directory entries at all. -/
def walkOf (input : ScanInput) : List (List FSFile) :=
  if input.readable then input.walk else []

/-- The flattened stream of files the hashing loop visits. -/
def allFiles (input : ScanInput) : List FSFile :=
  (walkOf input).flatten

/-- The pre-pass file count (src/main.py line 90):
`sum(len(files) for _, _, files in os.walk(directory_path))` — a separate
full traversal taken before any hashing. -/
def total_files (walk : List (List FSFile)) : Nat :=
  (walk.map fun d => d.length).sum

/-- Python `dict` lookup (insertion-ordered association list). -/
def dictGet {V : Type} : List (Digest × V) → Digest → Option V
  | [], _ => none
  | (k', v) :: d, k => if k = k' then some v else dictGet d k

/-- Python `dict` assignment: replaces the value of an existing key in place,
otherwise appends the new binding at the end (insertion order). -/
def dictInsert {V : Type} : List (Digest × V) → Digest → V → List (Digest × V)
  | [], k, v => [(k, v)]
  | (k', v') :: d, k, v =>
    if k = k' then (k', v) :: d else (k', v') :: dictInsert d k v

instance exceptDecEq {A B : Type} [DecidableEq A] [DecidableEq B] :
    DecidableEq (Except A B) := fun a b =>
  match a, b with
  | Except.error x, Except.error y =>
    if h : x = y then isTrue (by rw [h]) else isFalse (fun hc => h (Except.error.inj hc))
  | Except.error _, Except.ok _ => isFalse (fun hc => Except.noConfusion hc)
  | Except.ok _, Except.error _ => isFalse (fun hc => Except.noConfusion hc)
  | Except.ok x, Except.ok y =>
    if h : x = y then isTrue (by rw [h]) else isFalse (fun hc => h (Except.ok.inj hc))

/-- Opening a file by its (relative) path during the second pass or for
`os.path.getsize`. -/
def readFile (files : List FSFile) (path : String) : Except String (List Nat) :=
  match files.find? (fun f => f.path == path) with
  | some f => f.data
  | none => Except.error "file not found"

/-- `os.path.getsize`, modelled as the length of the file's content. -/
def getsize (files : List FSFile) (path : String) : Except String Nat :=
  (readFile files path).map List.length

/-- The mutable state of the first (prefix-hash) pass: the `hashes` dict
(prefix digest ↦ first path seen), the `duplicates` dict (prefix digest ↦
later paths), the `processed_files` counter and the progress updates pushed
to the progress bar/text. -/
structure PassState where
  hashes : List (Digest × String)
  duplicates : List (Digest × List String)
  processed : Nat
  progress : List (Nat × Nat)

/-- The initial state (src/main.py lines 81-91): empty dicts, zero counter. -/
def initState : PassState :=
  { hashes := [], duplicates := [], processed := 0, progress := [] }

/-- The prefix-hash walk loop (src/main.py lines 99-120).  For each file:
compute `xxprehashsum` (an uncaught `IOError` propagates), bucket the path,
increment `processed_files` and report `(processed, total)`. -/
def prehash_pass (total : Nat) : PassState → List FSFile → Except String PassState
  | st, [] => Except.ok st
  | st, f :: fs =>
    match f.data with
    | Except.error e => Except.error e
    | Except.ok content =>
      let filehash := xxprehashsum xxh128 content prehash_size
      let st' :=
        match dictGet st.hashes filehash with
        | some _ =>
          { st with duplicates :=
              (dictInsert st.duplicates filehash
                (((dictGet st.duplicates filehash).getD []) ++ [f.path])) }
        | none => { st with hashes := dictInsert st.hashes filehash f.path }
      prehash_pass total
        { st' with processed := st'.processed + 1,
                   progress := st'.progress ++ [(st'.processed + 1, total)] } fs

/-- The inner comparison loop of the confirmation pass (src/main.py lines
140-142): full-hash each remaining path and append it to `matches` when its
digest equals the reference digest. -/
def full_hash_matches (files : List FSFile) (reference : Digest) :
    List String → List String → Except String (List String)
  | matched, [] => Except.ok matched
  | matched, p :: ps =>
    match readFile files p with
    | Except.error e => Except.error e
    | Except.ok c =>
      full_hash_matches files reference
        (if xxhashsum xxh128 c = reference then matched ++ [p] else matched) ps

/-- One iteration of the confirmation loop (src/main.py lines 125-145) for a
bucket `(filehash, paths)`: `all_paths = paths + [hashes[filehash]]` (the
first-seen primary comes last), the reference full hash is taken from
`all_paths[0]`, and the bucket contributes at most one group — the matches —
kept only when more than one path matched. -/
def recheck_bucket (files : List FSFile) (hashes : List (Digest × String))
    (filehash : Digest) (paths : List String) :
    Except String (Option (Digest × List String)) :=
  match dictGet hashes filehash with
  | none => Except.ok none
  | some primary =>
    match paths ++ [primary] with
    | [] => Except.ok none
    | first :: rest =>
      match readFile files first with
      | Except.error e => Except.error e
      | Except.ok c =>
        let full_hash := xxhashsum xxh128 c
        match full_hash_matches files full_hash [first] rest with
        | Except.error e => Except.error e
        | Except.ok matched =>
          Except.ok (if 1 < matched.length then some (full_hash, matched) else none)

/-- The confirmation pass (src/main.py lines 124-145): fold `recheck_bucket`
over the `duplicates` dict in insertion order, accumulating the
`true_duplicates` dict keyed by full hash. -/
def recheck (files : List FSFile) (hashes : List (Digest × String)) :
    List (Digest × List String) → List (Digest × List String) →
    Except String (List (Digest × List String))
  | td, [] => Except.ok td
  | td, (filehash, paths) :: rest =>
    match recheck_bucket files hashes filehash paths with
    | Except.error e => Except.error e
    | Except.ok none => recheck files hashes td rest
    | Except.ok (some (fh, matched)) =>
      recheck files hashes (dictInsert td fh matched) rest

/-- The `file_sizes` dict (src/main.py lines 150-155): size of the first
member of every confirmed group, keyed like `true_duplicates`. -/
def compute_file_sizes (files : List FSFile) :
    List (Digest × Nat) → List (Digest × List String) →
    Except String (List (Digest × Nat))
  | sizes, [] => Except.ok sizes
  | sizes, (fh, paths) :: rest =>
    match getsize files (paths.headD "") with
    | Except.error e => Except.error e
    | Except.ok sz => compute_file_sizes files (dictInsert sizes fh sz) rest

/-- The sort key of an entry of `true_duplicates`:
`key=lambda item: file_sizes[item[0]]` (src/main.py line 157). -/
def keyOf (sizes : List (Digest × Nat)) (item : Digest × List String) : Nat :=
  (dictGet sizes item.1).getD 0

/-- `sorted(..., reverse=True)` orders by descending key; Python's sort is
stable, which any stable descending sort reproduces exactly. -/
def sortRel (sizes : List (Digest × Nat)) :
    (Digest × List String) → (Digest × List String) → Prop :=
  fun a b => keyOf sizes b ≤ keyOf sizes a

instance sortRelDecidable (sizes : List (Digest × Nat)) : DecidableRel (sortRel sizes) :=
  fun a b => Nat.decLe _ _

instance sortRelTotal (sizes : List (Digest × Nat)) :
    IsTotal (Digest × List String) (sortRel sizes) :=
  ⟨fun a b => Nat.le_total (keyOf sizes b) (keyOf sizes a)⟩

instance sortRelTrans (sizes : List (Digest × Nat)) :
    IsTrans (Digest × List String) (sortRel sizes) :=
  ⟨fun _ _ _ h1 h2 => Nat.le_trans h2 h1⟩

/-- The display loop (src/main.py lines 168-185): walk the sorted groups,
skip the zero-byte ones, and emit one table row `(file_size, member paths)`
per remaining group. -/
def presentation (sizes : List (Digest × Nat)) :
    List (Digest × List String) → List (Nat × List String) :=
  List.filterMap fun item =>
    let file_size := keyOf sizes item
    if file_size = 0 then none else some (file_size, item.2)

/-- The observable outcome of one `scan_directory` call.  `cancelled` comes
from the spec's status taxonomy; it is listed so that its unreachability can
be stated. -/
inductive ScanResult where
  | invalidRoot : ScanResult
  | crashed : String → ScanResult
  | cancelled : ScanResult
  | completed : List (Nat × List String) → List (Nat × Nat) → Nat → ScanResult
deriving DecidableEq

/-- Stage view: the prefix pass as run by `scan_directory`. -/
def scan_prehash (input : ScanInput) : Except String PassState :=
  prehash_pass (total_files (walkOf input)) initState (allFiles input)

/-- Stage view: the `true_duplicates` dict as computed by `scan_directory`. -/
def scan_true_duplicates (input : ScanInput) :
    Except String (List (Digest × List String)) :=
  match scan_prehash input with
  | Except.error e => Except.error e
  | Except.ok st => recheck (allFiles input) st.hashes [] st.duplicates

/-- `scan_directory` (src/main.py lines 65-188).  The root check is
`not directory_path or directory_path == "No directory selected." or not
os.path.isdir(directory_path)` (lines 68-75); then count, prefix pass,
confirmation pass, sizes, stable descending sort, display. -/
def scan_directory (input : ScanInput) : ScanResult :=
  if input.directory_path = "" ∨ input.directory_path = "No directory selected."
      ∨ input.is_dir = false then
    ScanResult.invalidRoot
  else
    match scan_prehash input with
    | Except.error e => ScanResult.crashed e
    | Except.ok st =>
      match scan_true_duplicates input with
      | Except.error e => ScanResult.crashed e
      | Except.ok td =>
        match compute_file_sizes (allFiles input) [] td with
        | Except.error e => ScanResult.crashed e
        | Except.ok sizes =>
          ScanResult.completed
            (presentation sizes (List.insertionSort (sortRel sizes) td))
            st.progress
            (total_files (walkOf input))

/-- The scan invoked while the caller's cancellation flag is set.
`scan_directory` reads no cancellation signal anywhere (src/main.py lines
65-188 contain no flag, no polling point), so the flag cannot influence it;
this wrapper makes that observable fact statable. -/
def scan_directory_with_cancel (cancelRequested : Bool) (input : ScanInput) : ScanResult :=
  scan_directory input


/-- Modelled from the words of claim C8 (spec section 6): select the unit by
thresholds at powers of 1024 and render the scaled value with two decimal
places for every unit, including `B`. -/
def format_filesize_claim (size : Nat) : String :=
  if size < 1024 then fmt2 size 1 ++ " B"
  else if size < 1024 ^ 2 then fmt2 size 1024 ++ " KB"
  else if size < 1024 ^ 3 then fmt2 size (1024 ^ 2) ++ " MB"
  else if size < 1024 ^ 4 then fmt2 size (1024 ^ 3) ++ " GB"
  else fmt2 size (1024 ^ 4) ++ " TB"

/-- The `IOError` a file raises on open/read, when it raises one. -/
def dataError (f : FSFile) : Option String :=
  match f.data with
  | Except.error e => some e
  | Except.ok _ => none

/-- C6 counterexample: an unreadable (but existing) directory is not detected
by the root check — `os.path.isdir` still holds, `os.walk` silently yields
nothing — so the scan does not fail fast with a distinguishable error: it
runs to normal completion with an empty result. -/
def lockedDir : ScanInput :=
  { directory_path := "/locked", is_dir := true, readable := false,
    walk := [[{ path := "f", data := Except.ok [1] }]] }

/-- C9 counterexample: a small directory with one duplicate pair, scanned
with the cancellation flag raised before the walk: the scan ignores the flag
and reports normal completion, not a `Cancelled` status. -/
def pairDir : ScanInput :=
  { directory_path := "/d", is_dir := true, readable := true,
    walk := [[{ path := "a", data := Except.ok [5] },
              { path := "b", data := Except.ok [5] }]] }

/-- C3 counterexample: one unreadable file among readable duplicates.  The
`IOError` is not caught per-file: the whole scan aborts with the error, the
remaining file is never processed and no result — not even for the unaffected
duplicate pair — is produced. -/
def ioErrorDir : ScanInput :=
  { directory_path := "/d", is_dir := true, readable := true,
    walk := [[{ path := "a", data := Except.ok [1] },
              { path := "bad", data := Except.error "io" },
              { path := "b", data := Except.ok [1] }]] }

/-- Concrete check: primary "a" holds content [1], candidates "b", "c" hold
content [2]; the reference is "b"'s digest, so "b" and "c" are grouped and
the primary is discarded. -/
def bucketFiles : List FSFile :=
  [{ path := "a", data := Except.ok [1] },
   { path := "b", data := Except.ok [2] },
   { path := "c", data := Except.ok [2] }]

def bucketContent (p : String) : List Nat := if p = "a" then [1] else [2]

/-- A 262144-byte (prefix-limit-sized) run of zero bytes. -/
def bigPrefix : List Nat := List.replicate prehash_size 0

/-- First-seen file of the colliding bucket: it becomes the primary. -/
def fileY : FSFile := { path := "y", data := Except.ok (bigPrefix ++ [1]) }

/-- Second file: same 256 KiB prefix, different last byte.  As the first
non-primary candidate it supplies the reference full digest. -/
def fileX : FSFile := { path := "x", data := Except.ok (bigPrefix ++ [2]) }

/-- Third file: bit-identical to `fileY`. -/
def fileZ : FSFile := { path := "z", data := Except.ok (bigPrefix ++ [1]) }

/-- Three files sharing one prefix digest: the identical pair `y`, `z` and
the prefix-colliding `x` sitting between them in walk order. -/
def collidingDir : ScanInput :=
  { directory_path := "/d", is_dir := true, readable := true,
    walk := [[fileY, fileX, fileZ]] }

/-- The contents of the three colliding files, as a lookup function. -/
def collidingContent (p : String) : List Nat :=
  if p = "x" then bigPrefix ++ [2] else bigPrefix ++ [1]

/-- Two zero-byte files: they collapse into one prefix bucket, the
confirmation pass confirms them as a group (their full digests agree), and
only the display stage drops the group for having size 0. -/
def zeroPairDir : ScanInput :=
  { directory_path := "/d", is_dir := true, readable := true,
    walk := [[{ path := "a", data := Except.ok [] },
              { path := "b", data := Except.ok [] }]] }

/-- Three duplicate pairs with sizes 1, 2, 2 — two groups tie on size. -/
def sortDir : ScanInput :=
  { directory_path := "/d", is_dir := true, readable := true,
    walk := [[{ path := "a", data := Except.ok [7] },
              { path := "b", data := Except.ok [7] },
              { path := "c", data := Except.ok [8, 8] },
              { path := "d", data := Except.ok [8, 8] },
              { path := "e", data := Except.ok [9, 9] },
              { path := "f", data := Except.ok [9, 9] }]] }

/-! ## Theorems about the claims -/

/-! ## C2: the prefix hasher -/

/-- C2: `xxprehashsum` reads at most the first 262144 = 8^6 bytes (the bytes
read are `content.take prehash_size`, a prefix of length at most 262144) and
hashes exactly the bytes read; a file shorter than the limit has its whole
content hashed; and two files share a prefix digest exactly when the bytes
actually read from each hash to the same digest. -/
theorem xxprehashsum_reads_at_most_limit (algo : List Nat → Digest) (content : List Nat) :
    prehash_size = 262144 ∧
    (content.take prehash_size).length ≤ 262144 ∧
    xxprehashsum algo content prehash_size = algo (content.take prehash_size) ∧
    (content.length < 262144 → xxprehashsum algo content prehash_size = algo content) ∧
    (∀ c2 : List Nat,
      (xxprehashsum algo content prehash_size = xxprehashsum algo c2 prehash_size ↔
        algo (content.take prehash_size) = algo (c2.take prehash_size))) := by
  have hsize : prehash_size = 262144 := by norm_num [prehash_size]
  refine ⟨hsize, ?_, rfl, ?_, fun c2 => Iff.rfl⟩
  · calc (content.take prehash_size).length ≤ prehash_size := by
          simp [List.length_take]
      _ = 262144 := hsize
  · intro h
    have : content.take prehash_size = content :=
      List.take_of_length_le (by omega)
    simp [xxprehashsum, this]

theorem xxprehashsum_reads_at_most_limit_witness :
    xxprehashsum (fun c => c) [3, 1, 4] prehash_size = (fun c => c) [3, 1, 4] :=
  (xxprehashsum_reads_at_most_limit (fun c => c) [3, 1, 4]).2.2.2.1 (by norm_num)

/-! ## C8: the size formatter -/

/-- C8 counterexample: at size 500 the code renders `"500 B"` — a plain
integer with no decimal places — while the claim mandates two decimal places
for every size, which would give `"500.00 B"`. -/
theorem format_filesize_bytes_branch_no_decimals :
    format_filesize 500 = "500 B" ∧
    format_filesize_claim 500 = "500.00 B" ∧
    format_filesize 500 ≠ format_filesize_claim 500 := by
  refine ⟨by decide, by decide, by decide⟩

/-- C8 amended: the formatter selects its unit by thresholds at powers of
1024 exactly as claimed, and from `KB` up renders the scaled value with two
decimal places (it agrees with the claim's formatter for every size of at
least 1024); but the `B` branch, for sizes below 1024, renders the plain
integer with no decimal places. -/
theorem format_filesize_unit_thresholds (size : Nat) :
    (size < 1024 → format_filesize size = toString size ++ " B") ∧
    (1024 ≤ size → size < 1024 ^ 2 → format_filesize size = fmt2 size 1024 ++ " KB") ∧
    (1024 ^ 2 ≤ size → size < 1024 ^ 3 →
      format_filesize size = fmt2 size (1024 ^ 2) ++ " MB") ∧
    (1024 ^ 3 ≤ size → size < 1024 ^ 4 →
      format_filesize size = fmt2 size (1024 ^ 3) ++ " GB") ∧
    (1024 ^ 4 ≤ size → format_filesize size = fmt2 size (1024 ^ 4) ++ " TB") ∧
    (1024 ≤ size → format_filesize size = format_filesize_claim size) := by
  refine ⟨fun h1 => ?_, fun h1 h2 => ?_, fun h1 h2 => ?_, fun h1 h2 => ?_,
    fun h1 => ?_, fun h1 => ?_⟩ <;>
    simp only [format_filesize, format_filesize_claim]
  · rw [if_pos h1]
  · rw [if_neg (by omega), if_pos h2]
  · rw [if_neg (by omega), if_neg (by omega), if_pos h2]
  · rw [if_neg (by omega), if_neg (by omega), if_neg (by omega), if_pos h2]
  · rw [if_neg (by omega), if_neg (by omega), if_neg (by omega), if_neg (by omega)]
  · have h0 : ¬ size < 1024 := by omega
    rw [if_neg h0, if_neg h0]

theorem format_filesize_unit_thresholds_witness :
    format_filesize 2048 = fmt2 2048 1024 ++ " KB" ∧
    format_filesize 2048 = format_filesize_claim 2048 ∧
    format_filesize 5 = toString 5 ++ " B" :=
  ⟨(format_filesize_unit_thresholds 2048).2.1 (by norm_num) (by norm_num),
   (format_filesize_unit_thresholds 2048).2.2.2.2.2 (by norm_num),
   (format_filesize_unit_thresholds 5).1 (by norm_num)⟩

/-! ## Generic facts about the prefix pass -/

theorem prehash_pass_first_error (total : Nat) :
    ∀ (fs : List FSFile) (st : PassState) (e : String),
      fs.findSome? dataError = some e → prehash_pass total st fs = Except.error e := by
  intro fs
  induction fs with
  | nil => intro st e h; simp [List.findSome?] at h
  | cons f fs ih =>
    intro st e h
    rw [List.findSome?_cons] at h
    match hd : f.data with
    | Except.error e' =>
      simp [dataError, hd] at h
      simp [prehash_pass, hd, h]
    | Except.ok c =>
      simp [dataError, hd] at h
      simp only [prehash_pass, hd]
      exact ih _ e h

theorem prehash_pass_ok_progress (total : Nat) :
    ∀ (fs : List FSFile) (st st' : PassState),
      prehash_pass total st fs = Except.ok st' →
      st'.processed = st.processed + fs.length ∧
      st'.progress = st.progress ++
        (List.range fs.length).map (fun i => (st.processed + i + 1, total)) := by
  intro fs
  induction fs with
  | nil =>
    intro st st' h
    simp [prehash_pass] at h
    simp [← h]
  | cons f fs ih =>
    intro st st' h
    match hd : f.data with
    | Except.error e => simp [prehash_pass, hd] at h
    | Except.ok c =>
      simp only [prehash_pass, hd] at h
      rcases ih _ _ h with ⟨h1, h2⟩
      constructor
      · simp only [h1]
        cases hb : dictGet st.hashes (xxprehashsum xxh128 c prehash_size) <;>
          simp [hb, List.length_cons] <;> omega
      · rw [h2]
        cases hb : dictGet st.hashes (xxprehashsum xxh128 c prehash_size) <;>
          simp only [hb] <;>
          · simp only [List.range_succ_eq_map, List.map_cons, List.map_map, List.append_assoc,
              List.cons_append, List.nil_append, List.length_cons]
            refine congrArg _ (congrArg _ ?_)
            refine List.map_congr_left fun i _ => ?_
            simp only [Function.comp_apply, Function.comp, Prod.mk.injEq, and_true]
            omega

/-! ## C6: root validation -/

theorem unreadable_root_not_rejected :
    lockedDir.readable = false ∧
    lockedDir.is_dir = true ∧
    lockedDir.directory_path ≠ "" ∧
    scan_directory lockedDir = ScanResult.completed [] [] 0 ∧
    scan_directory lockedDir ≠ ScanResult.invalidRoot := by
  refine ⟨rfl, rfl, by decide, by decide, by decide⟩

/-- C6 amended: an empty path, the placeholder string, or a non-directory
cause an immediate invalid-root report with no counting, no hashing and no
partial result; but an unreadable directory passes the check — the walk
silently yields nothing and the scan completes normally with zero files,
an empty progress trace and no groups. -/
theorem scan_root_validation :
    (∀ inp : ScanInput,
      (inp.directory_path = "" ∨ inp.directory_path = "No directory selected."
        ∨ inp.is_dir = false) →
      scan_directory inp = ScanResult.invalidRoot) ∧
    (∀ inp : ScanInput,
      ¬(inp.directory_path = "" ∨ inp.directory_path = "No directory selected."
        ∨ inp.is_dir = false) →
      inp.readable = false →
      scan_directory inp = ScanResult.completed [] [] 0) := by
  constructor
  · intro inp h
    unfold scan_directory
    rw [if_pos h]
  · intro inp h hr
    unfold scan_directory
    rw [if_neg h]
    simp [scan_prehash, scan_true_duplicates, allFiles, walkOf, hr, total_files,
      prehash_pass, recheck, compute_file_sizes, initState, presentation]

theorem scan_root_validation_witness :
    scan_directory { directory_path := "", is_dir := true, readable := true, walk := [] }
      = ScanResult.invalidRoot ∧
    scan_directory lockedDir = ScanResult.completed [] [] 0 :=
  ⟨scan_root_validation.1 _ (Or.inl rfl),
   scan_root_validation.2 lockedDir (by decide) rfl⟩

/-! ## C9: cancellation -/

theorem cancel_signal_ignored_on_concrete_scan :
    scan_directory_with_cancel true pairDir
      = ScanResult.completed [(1, ["b", "a"])] [(1, 2), (2, 2)] 2 ∧
    scan_directory_with_cancel true pairDir = scan_directory_with_cancel false pairDir ∧
    ScanResult.completed [(1, ["b", "a"])] [(1, 2), (2, 2)] 2 ≠ ScanResult.cancelled := by
  refine ⟨by decide, rfl, by decide⟩

/-- C9 amended: `scan_directory` polls no cancellation flag at all; invoking
the scan with cancellation signalled behaves exactly like invoking it without,
and no scan invocation ever terminates with the `Cancelled` status of the
spec's taxonomy — the only outcomes are invalid-root, an uncaught crash, or
completion. -/
theorem scan_never_cancelled (cancelRequested : Bool) (inp : ScanInput) :
    scan_directory_with_cancel cancelRequested inp = scan_directory inp ∧
    scan_directory_with_cancel cancelRequested inp ≠ ScanResult.cancelled := by
  refine ⟨rfl, ?_⟩
  show scan_directory inp ≠ ScanResult.cancelled
  unfold scan_directory
  split
  · simp
  · split
    · simp
    · split
      · simp
      · split
        · simp
        · simp

/-! ## C3: per-file errors -/

theorem io_error_crashes_scan :
    scan_directory ioErrorDir = ScanResult.crashed "io" := by decide

/-- C3 amended: an `IOError` raised while opening or reading a file during
the hashing pass is not caught anywhere: it propagates out of the walk loop
and aborts the whole scan with the first failing file's error; the failing
file is not skipped, no warning mechanism exists, and the files after it are
never processed. -/
theorem scan_io_error_aborts (inp : ScanInput) (e : String)
    (hroot : ¬(inp.directory_path = "" ∨ inp.directory_path = "No directory selected."
      ∨ inp.is_dir = false))
    (herr : (allFiles inp).findSome? dataError = some e) :
    scan_directory inp = ScanResult.crashed e := by
  have h1 : scan_prehash inp = Except.error e :=
    prehash_pass_first_error _ _ _ _ herr
  unfold scan_directory
  rw [if_neg hroot, h1]

theorem scan_io_error_aborts_witness :
    scan_directory ioErrorDir = ScanResult.crashed "io" :=
  scan_io_error_aborts ioErrorDir "io" (by decide) (by decide)

/-! ## C7: counting pass and progress reporting -/

/-- C7: when a scan completes, the reported total is the pre-pass count
`total_files` — a separate traversal summing the per-directory file counts,
taken before hashing starts — which equals the number of files the hashing
pass visits, and progress is reported after every single file as the pair
`(processed, total)` with the processed count incremented by exactly 1 per
file: the trace is `(1, n), (2, n), ..., (n, n)`. -/
theorem scan_progress_reporting (inp : ScanInput) (groups : List (Nat × List String))
    (progress : List (Nat × Nat)) (total : Nat)
    (h : scan_directory inp = ScanResult.completed groups progress total) :
    total = total_files (walkOf inp) ∧
    total = (allFiles inp).length ∧
    progress = (List.range total).map (fun i => (i + 1, total)) := by
  have hlen : total_files (walkOf inp) = (allFiles inp).length := by
    simp [total_files, allFiles, List.length_flatten]
  unfold scan_directory at h
  split at h
  · exact absurd h (by simp)
  rcases hpre : scan_prehash inp with e | st
  · rw [hpre] at h
    exact absurd h (by simp)
  simp only [hpre] at h
  rcases htd : scan_true_duplicates inp with e | td
  · rw [htd] at h
    exact absurd h (by simp)
  simp only [htd] at h
  rcases hsz : compute_file_sizes (allFiles inp) [] td with e | sizes
  · rw [hsz] at h
    exact absurd h (by simp)
  simp only [hsz] at h
  simp only [ScanResult.completed.injEq] at h
  rcases h with ⟨h1, h2, h3⟩
  rcases prehash_pass_ok_progress _ _ _ _ hpre with ⟨_, hprog⟩
  refine ⟨h3.symm, by rw [← h3, hlen], ?_⟩
  rw [← h2, hprog]
  simp only [initState, List.nil_append, ← h3]
  rw [hlen]
  refine List.map_congr_left fun i _ => ?_
  simp only [Prod.mk.injEq, and_true]
  omega

theorem scan_progress_reporting_witness :
    (2 : Nat) = total_files (walkOf pairDir) ∧
    (2 : Nat) = (allFiles pairDir).length ∧
    [(1, 2), (2, 2)] = (List.range 2).map (fun i => (i + 1, 2)) :=
  scan_progress_reporting pairDir [(1, ["b", "a"])] [(1, 2), (2, 2)] 2 (by decide)

/-! ## Characterizing the confirmation pass -/

theorem full_hash_matches_eq (files : List FSFile) (reference : Digest)
    (contentOf : String → List Nat) :
    ∀ (ps acc : List String),
      (∀ p ∈ ps, readFile files p = Except.ok (contentOf p)) →
      full_hash_matches files reference acc ps =
        Except.ok (acc ++ ps.filter
          (fun p => decide (xxhashsum xxh128 (contentOf p) = reference))) := by
  intro ps
  induction ps with
  | nil => intro acc _; simp [full_hash_matches]
  | cons p ps ih =>
    intro acc hread
    have hp : readFile files p = Except.ok (contentOf p) := hread p (by simp)
    have hps : ∀ q ∈ ps, readFile files q = Except.ok (contentOf q) :=
      fun q hq => hread q (by simp [hq])
    simp only [full_hash_matches, hp]
    rw [ih _ hps]
    by_cases heq : xxhashsum xxh128 (contentOf p) = reference
    · simp [heq, List.filter_cons]
    · simp [heq, List.filter_cons]

theorem recheck_bucket_eq (files : List FSFile) (hashes : List (Digest × String))
    (filehash : Digest) (q : String) (qs : List String) (primary : String)
    (contentOf : String → List Nat)
    (hprim : dictGet hashes filehash = some primary)
    (hread : ∀ p ∈ q :: (qs ++ [primary]), readFile files p = Except.ok (contentOf p)) :
    recheck_bucket files hashes filehash (q :: qs) =
      Except.ok
        (if 1 < ((q :: (qs ++ [primary])).filter
            (fun p => decide (xxhashsum xxh128 (contentOf p) =
              xxhashsum xxh128 (contentOf q)))).length
         then some (xxhashsum xxh128 (contentOf q),
            (q :: (qs ++ [primary])).filter
              (fun p => decide (xxhashsum xxh128 (contentOf p) =
                xxhashsum xxh128 (contentOf q))))
         else none) := by
  have hq : readFile files q = Except.ok (contentOf q) := hread q (by simp)
  have hrest : ∀ p ∈ qs ++ [primary], readFile files p = Except.ok (contentOf p) :=
    fun p hp => hread p (by simp [hp])
  show (match dictGet hashes filehash with
    | none => Except.ok none
    | some primary => _) = _
  rw [hprim]
  show (match (q :: qs) ++ [primary] with
    | [] => Except.ok none
    | first :: rest => _) = _
  simp only [List.cons_append]
  rw [hq]
  show (match full_hash_matches files (xxhashsum xxh128 (contentOf q)) [q] (qs ++ [primary]) with
    | Except.error e => Except.error e
    | Except.ok matched =>
        Except.ok (if 1 < matched.length
          then some (xxhashsum xxh128 (contentOf q), matched) else none)) = _
  rw [full_hash_matches_eq files _ contentOf _ _ hrest]
  have hself : (q :: (qs ++ [primary])).filter
      (fun p => decide (xxhashsum xxh128 (contentOf p) = xxhashsum xxh128 (contentOf q))) =
      q :: (qs ++ [primary]).filter
        (fun p => decide (xxhashsum xxh128 (contentOf p) = xxhashsum xxh128 (contentOf q))) := by
    rw [List.filter_cons]
    simp
  rw [hself]
  rfl

/-! ## C10 and C1: what the confirmation pass actually emits -/

/-- C10: a bucket with at least 2 members (the non-primary candidates
`q :: qs`, then the first-seen primary compared last) yields at most one
group: the reference is the full digest of `q`, the bucket's first
non-primary candidate, and the members kept are exactly those whose full
digest equals that reference — every other member is discarded, even when
two discarded members have full digests equal to each other, since
membership is decided only by comparison against the reference. -/
theorem recheck_bucket_single_reference (files : List FSFile)
    (hashes : List (Digest × String)) (filehash : Digest)
    (q : String) (qs : List String) (primary : String)
    (contentOf : String → List Nat)
    (hprim : dictGet hashes filehash = some primary)
    (hread : ∀ p ∈ q :: (qs ++ [primary]), readFile files p = Except.ok (contentOf p)) :
    ∃ matched : List String,
      matched = (q :: (qs ++ [primary])).filter
        (fun p => decide (xxhashsum xxh128 (contentOf p) = xxhashsum xxh128 (contentOf q))) ∧
      recheck_bucket files hashes filehash (q :: qs) =
        Except.ok (if 1 < matched.length
          then some (xxhashsum xxh128 (contentOf q), matched) else none) :=
  ⟨_, rfl, recheck_bucket_eq files hashes filehash q qs primary contentOf hprim hread⟩

theorem recheck_bucket_single_reference_witness :
    ∃ matched : List String,
      matched = ("b" :: (["c"] ++ ["a"])).filter
        (fun p => decide (xxhashsum xxh128 (bucketContent p) =
          xxhashsum xxh128 (bucketContent "b"))) ∧
      recheck_bucket bucketFiles [([9], "a")] [9] ["b", "c"] =
        Except.ok (if 1 < matched.length
          then some (xxhashsum xxh128 (bucketContent "b"), matched) else none) :=
  recheck_bucket_single_reference bucketFiles [([9], "a")] [9] "b" ["c"] "a"
    bucketContent (by decide) (by decide)

/-- C1 amended/corrected: the confirmation pass does not partition a bucket
by full digest.  For an emitted group: all members share one full digest and
the members are exactly the bucket candidates whose full digest equals the
digest of the bucket's first non-primary candidate (the primary compared
last).  Two files with equal full digests therefore appear together only if
both match that reference; as `identical_files_in_no_group` shows, a pair of
identical non-empty files can appear in no group at all. -/
theorem group_members_match_first_reference (files : List FSFile)
    (hashes : List (Digest × String)) (filehash : Digest)
    (q : String) (qs : List String) (primary : String)
    (contentOf : String → List Nat) (g : Digest × List String)
    (hprim : dictGet hashes filehash = some primary)
    (hread : ∀ p ∈ q :: (qs ++ [primary]), readFile files p = Except.ok (contentOf p))
    (hg : recheck_bucket files hashes filehash (q :: qs) = Except.ok (some g)) :
    (∀ p1 ∈ g.2, ∀ p2 ∈ g.2,
      xxhashsum xxh128 (contentOf p1) = xxhashsum xxh128 (contentOf p2)) ∧
    (∀ p, p ∈ g.2 ↔ (p ∈ q :: (qs ++ [primary]) ∧
      xxhashsum xxh128 (contentOf p) = xxhashsum xxh128 (contentOf q))) := by
  rw [recheck_bucket_eq files hashes filehash q qs primary contentOf hprim hread] at hg
  split at hg
  · simp only [Except.ok.injEq, Option.some.injEq] at hg
    have hg2 : g.2 = (q :: (qs ++ [primary])).filter
        (fun p => decide (xxhashsum xxh128 (contentOf p) =
          xxhashsum xxh128 (contentOf q))) := by
      rw [← hg]
    constructor
    · intro p1 hp1 p2 hp2
      rw [hg2] at hp1 hp2
      have e1 := (List.mem_filter.mp hp1).2
      have e2 := (List.mem_filter.mp hp2).2
      simp only [decide_eq_true_eq] at e1 e2
      rw [e1, e2]
    · intro p
      rw [hg2, List.mem_filter]
      simp [decide_eq_true_eq]
  · exact absurd hg (by simp)

theorem group_members_match_first_reference_witness :
    (∀ p1 ∈ ["b", "c"], ∀ p2 ∈ ["b", "c"],
      xxhashsum xxh128 (bucketContent p1) = xxhashsum xxh128 (bucketContent p2)) ∧
    (∀ p, p ∈ ["b", "c"] ↔ (p ∈ "b" :: (["c"] ++ ["a"]) ∧
      xxhashsum xxh128 (bucketContent p) = xxhashsum xxh128 (bucketContent "b"))) :=
  group_members_match_first_reference bucketFiles [([9], "a")] [9] "b" ["c"] "a"
    bucketContent ([2], ["b", "c"]) (by decide) (by decide) (by decide)

theorem xxprehash_bigPrefix (l : List Nat) :
    xxprehashsum xxh128 (bigPrefix ++ l) prehash_size = bigPrefix := by
  have h : bigPrefix.length = prehash_size := by simp [bigPrefix]
  simp only [xxprehashsum, xxh128]
  rw [← h, List.take_left]

theorem bigPrefix_append_ne {a b : Nat} (h : a ≠ b) :
    ¬(bigPrefix ++ [a] = bigPrefix ++ [b]) := by
  intro hc
  exact h (by simpa using List.append_cancel_left hc)

theorem dictGet_nil {V : Type} (k : Digest) : dictGet ([] : List (Digest × V)) k = none := rfl

theorem dictGet_cons_self {V : Type} (k : Digest) (v : V) (d : List (Digest × V)) :
    dictGet ((k, v) :: d) k = some v := by
  show (if k = k then some v else dictGet d k) = some v
  rw [if_pos rfl]

theorem dictInsert_nil {V : Type} (k : Digest) (v : V) : dictInsert [] k v = [(k, v)] := rfl

theorem dictInsert_cons_self {V : Type} (k : Digest) (v v' : V) (d : List (Digest × V)) :
    dictInsert ((k, v') :: d) k v = (k, v) :: d := by
  show (if k = k then (k, v) :: d else (k, v') :: dictInsert d k v) = (k, v) :: d
  rw [if_pos rfl]

theorem prehash_pass_cons_new (total : Nat) (st : PassState) (f : FSFile)
    (fs : List FSFile) (content : List Nat)
    (hd : f.data = Except.ok content)
    (hnew : dictGet st.hashes (xxprehashsum xxh128 content prehash_size) = none) :
    prehash_pass total st (f :: fs) =
      prehash_pass total
        { hashes := dictInsert st.hashes (xxprehashsum xxh128 content prehash_size) f.path,
          duplicates := st.duplicates,
          processed := st.processed + 1,
          progress := st.progress ++ [(st.processed + 1, total)] } fs := by
  simp only [prehash_pass, hd, hnew]

theorem prehash_pass_cons_dup (total : Nat) (st : PassState) (f : FSFile)
    (fs : List FSFile) (content : List Nat) (prim : String)
    (hd : f.data = Except.ok content)
    (hdup : dictGet st.hashes (xxprehashsum xxh128 content prehash_size) = some prim) :
    prehash_pass total st (f :: fs) =
      prehash_pass total
        { hashes := st.hashes,
          duplicates := (dictInsert st.duplicates (xxprehashsum xxh128 content prehash_size)
            (((dictGet st.duplicates (xxprehashsum xxh128 content prehash_size)).getD [])
              ++ [f.path])),
          processed := st.processed + 1,
          progress := st.progress ++ [(st.processed + 1, total)] } fs := by
  simp only [prehash_pass, hd, hdup]

theorem collidingDir_prehash :
    scan_prehash collidingDir = Except.ok
      { hashes := [(bigPrefix, "y")], duplicates := [(bigPrefix, ["x", "z"])],
        processed := 3, progress := [(1, 3), (2, 3), (3, 3)] } := by
  show prehash_pass 3 initState [fileY, fileX, fileZ] = _
  rw [prehash_pass_cons_new 3 initState fileY [fileX, fileZ] (bigPrefix ++ [1]) rfl rfl]
  simp only [initState, xxprehash_bigPrefix, dictInsert_nil, List.nil_append]
  rw [prehash_pass_cons_dup 3 _ fileX [fileZ] (bigPrefix ++ [2]) "y" rfl
    (by rw [xxprehash_bigPrefix]; exact dictGet_cons_self _ _ _)]
  simp only [xxprehash_bigPrefix, dictGet_nil, dictInsert_nil, Option.getD_none,
    List.nil_append, List.singleton_append]
  rw [prehash_pass_cons_dup 3 _ fileZ [] (bigPrefix ++ [1]) "y" rfl
    (by rw [xxprehash_bigPrefix]; exact dictGet_cons_self _ _ _)]
  simp only [xxprehash_bigPrefix, dictGet_cons_self, dictInsert_cons_self, Option.getD_some]
  rfl

theorem collidingDir_bucket :
    recheck_bucket [fileY, fileX, fileZ] [(bigPrefix, "y")] bigPrefix ["x", "z"] =
      Except.ok none := by
  have hread : ∀ p ∈ "x" :: (["z"] ++ ["y"]),
      readFile [fileY, fileX, fileZ] p = Except.ok (collidingContent p) := by
    intro p hp
    fin_cases hp <;> rfl
  rw [recheck_bucket_eq [fileY, fileX, fileZ] [(bigPrefix, "y")] bigPrefix "x" ["z"] "y"
    collidingContent (dictGet_cons_self _ _ _) hread]
  have ex : xxhashsum xxh128 (collidingContent "x") = bigPrefix ++ [2] := rfl
  have ez : xxhashsum xxh128 (collidingContent "z") = bigPrefix ++ [1] := rfl
  have ey : xxhashsum xxh128 (collidingContent "y") = bigPrefix ++ [1] := rfl
  have hzx : ¬(xxhashsum xxh128 (collidingContent "z") =
      xxhashsum xxh128 (collidingContent "x")) := by
    rw [ez, ex]
    exact bigPrefix_append_ne (by decide)
  have hyx : ¬(xxhashsum xxh128 (collidingContent "y") =
      xxhashsum xxh128 (collidingContent "x")) := by
    rw [ey, ex]
    exact bigPrefix_append_ne (by decide)
  have dx : decide (xxhashsum xxh128 (collidingContent "x") =
      xxhashsum xxh128 (collidingContent "x")) = true := decide_eq_true rfl
  have dz : decide (xxhashsum xxh128 (collidingContent "z") =
      xxhashsum xxh128 (collidingContent "x")) = false := decide_eq_false hzx
  have dy : decide (xxhashsum xxh128 (collidingContent "y") =
      xxhashsum xxh128 (collidingContent "x")) = false := decide_eq_false hyx
  have hfil : ("x" :: (["z"] ++ ["y"])).filter
      (fun p => decide (xxhashsum xxh128 (collidingContent p) =
        xxhashsum xxh128 (collidingContent "x"))) = ["x"] := by
    rw [List.singleton_append, List.filter_cons, List.filter_cons, List.filter_cons]
    rw [dx, dz, dy]
    rfl
  rw [hfil]
  rw [if_neg (by norm_num)]

theorem collidingDir_true_duplicates :
    scan_true_duplicates collidingDir = Except.ok [] := by
  unfold scan_true_duplicates
  rw [collidingDir_prehash]
  show recheck [fileY, fileX, fileZ] [(bigPrefix, "y")] [] [(bigPrefix, ["x", "z"])] = _
  rw [recheck, collidingDir_bucket]
  rfl

/-- C1 counterexample: `fileY` and `fileZ` are distinct files with identical
full content of non-zero length, yet the completed scan emits no group at
all: their bucket takes its reference digest from `fileX` (the first
non-primary candidate), neither identical file matches it, and the bucket
match list of length 1 is discarded — so two files with equal FullDigest
appear together in no DuplicateGroup, refuting the partition/iff claim and
the exactly-one-group claim. -/
theorem identical_files_in_no_group :
    fileY.data = fileZ.data ∧
    fileY.path ≠ fileZ.path ∧
    (bigPrefix ++ [1]).length ≠ 0 ∧
    scan_directory collidingDir = ScanResult.completed [] [(1, 3), (2, 3), (3, 3)] 3 := by
  refine ⟨rfl, by decide, ?_, ?_⟩
  · intro h0
    rw [List.length_append, List.length_cons, List.length_nil] at h0
    omega
  · unfold scan_directory
    rw [if_neg (by decide)]
    rw [collidingDir_prehash, collidingDir_true_duplicates]
    rfl

/-! ## Membership and ordering facts for the ranking stage -/

theorem mem_dictInsert {V : Type} (d : List (Digest × V)) (k : Digest) (v : V) :
    ∀ x ∈ dictInsert d k v, x ∈ d ∨ x = (k, v) := by
  induction d with
  | nil =>
    intro x hx
    simp only [dictInsert, List.mem_singleton] at hx
    right
    exact hx
  | cons kv d ih =>
    intro x hx
    obtain ⟨k', v'⟩ := kv
    simp only [dictInsert] at hx
    by_cases hk : k = k'
    · rw [if_pos hk] at hx
      rcases List.mem_cons.mp hx with h1 | h1
      · right
        rw [h1, hk]
      · left
        exact List.mem_cons_of_mem _ h1
    · rw [if_neg hk] at hx
      rcases List.mem_cons.mp hx with h1 | h1
      · left
        rw [h1]
        exact List.mem_cons_self _ _
      · rcases ih x h1 with h2 | h2
        · left
          exact List.mem_cons_of_mem _ h2
        · right
          exact h2

theorem recheck_bucket_some_len (files : List FSFile) (hashes : List (Digest × String))
    (filehash : Digest) (paths : List String) (fh : Digest) (m : List String)
    (h : recheck_bucket files hashes filehash paths = Except.ok (some (fh, m))) :
    2 ≤ m.length := by
  unfold recheck_bucket at h
  rcases hd : dictGet hashes filehash with _ | primary
  · rw [hd] at h
    exact absurd h (by simp)
  simp only [hd] at h
  rcases hap : paths ++ [primary] with _ | ⟨first, rest⟩
  · rw [hap] at h
    exact absurd h (by simp)
  simp only [hap] at h
  rcases hr : readFile files first with e | c
  · rw [hr] at h
    exact absurd h (by simp)
  simp only [hr] at h
  rcases hm : full_hash_matches files (xxhashsum xxh128 c) [first] rest with e | matched
  · rw [hm] at h
    exact absurd h (by simp)
  simp only [hm] at h
  by_cases hlen : 1 < matched.length
  · rw [if_pos hlen] at h
    simp only [Except.ok.injEq, Option.some.injEq, Prod.mk.injEq] at h
    rcases h with ⟨_, h2⟩
    rw [← h2]
    omega
  · rw [if_neg hlen] at h
    exact absurd h (by simp)

theorem recheck_ok_values (files : List FSFile) (hashes : List (Digest × String)) :
    ∀ (buckets td0 td : List (Digest × List String)),
      recheck files hashes td0 buckets = Except.ok td →
      (∀ kv ∈ td0, 2 ≤ kv.2.length) →
      ∀ kv ∈ td, 2 ≤ kv.2.length := by
  intro buckets
  induction buckets with
  | nil =>
    intro td0 td h h0 kv hkv
    simp only [recheck, Except.ok.injEq] at h
    rw [← h] at hkv
    exact h0 kv hkv
  | cons b rest ih =>
    intro td0 td h h0
    obtain ⟨filehash, paths⟩ := b
    simp only [recheck] at h
    rcases hb : recheck_bucket files hashes filehash paths with e | (_ | ⟨fh, matched⟩)
    · rw [hb] at h
      exact absurd h (by simp)
    · simp only [hb] at h
      exact ih _ _ h h0
    · simp only [hb] at h
      refine ih _ _ h ?_
      intro kv hkv
      rcases mem_dictInsert td0 fh matched kv hkv with h1 | h1
      · exact h0 kv h1
      · rw [h1]
        exact recheck_bucket_some_len files hashes filehash paths fh matched hb

theorem mem_presentation (sizes : List (Digest × Nat)) (l : List (Digest × List String)) :
    ∀ x ∈ presentation sizes l, x.1 ≠ 0 ∧ ∃ it ∈ l, x = (keyOf sizes it, it.2) := by
  intro x hx
  unfold presentation at hx
  rcases List.mem_filterMap.mp hx with ⟨it, hit, hf⟩
  by_cases h0 : keyOf sizes it = 0
  · simp only [h0, if_pos] at hf
    exact absurd hf (by simp)
  · simp only [if_neg h0] at hf
    simp only [Option.some.injEq] at hf
    rw [← hf]
    exact ⟨h0, it, hit, rfl⟩

/-! ## C4: group invariants and the zero-byte filter -/

/-- C4: every displayed DuplicateGroup has at least 2 member paths and a
non-zero representative size; and the zero-byte filter sits at the
presentation stage, not earlier: for `zeroPairDir` the confirmation pass
still produces a (two-member, zero-byte) group in `true_duplicates`, which
the displayed output then drops. -/
theorem output_groups_min2_nonzero :
    (∀ (inp : ScanInput) (groups : List (Nat × List String))
        (progress : List (Nat × Nat)) (total : Nat),
      scan_directory inp = ScanResult.completed groups progress total →
      ∀ g ∈ groups, 2 ≤ g.2.length ∧ g.1 ≠ 0) ∧
    (scan_true_duplicates zeroPairDir = Except.ok [([], ["b", "a"])] ∧
     scan_directory zeroPairDir = ScanResult.completed [] [(1, 2), (2, 2)] 2) := by
  constructor
  · intro inp groups progress total h g hg
    unfold scan_directory at h
    split at h
    · exact absurd h (by simp)
    rcases hpre : scan_prehash inp with e | st
    · rw [hpre] at h
      exact absurd h (by simp)
    simp only [hpre] at h
    rcases htd : scan_true_duplicates inp with e | td
    · rw [htd] at h
      exact absurd h (by simp)
    simp only [htd] at h
    rcases hsz : compute_file_sizes (allFiles inp) [] td with e | sizes
    · rw [hsz] at h
      exact absurd h (by simp)
    simp only [hsz] at h
    simp only [ScanResult.completed.injEq] at h
    rcases h with ⟨h1, _, _⟩
    rw [← h1] at hg
    rcases mem_presentation sizes _ g hg with ⟨hne, it, hit, heq⟩
    have hit' : it ∈ td :=
      ((List.perm_insertionSort (sortRel sizes) td).mem_iff).mp hit
    have htdvals : ∀ kv ∈ td, 2 ≤ kv.2.length := by
      unfold scan_true_duplicates at htd
      rcases hpre2 : scan_prehash inp with e | st2
      · rw [hpre2] at htd
        exact absurd htd (by simp)
      simp only [hpre2] at htd
      exact recheck_ok_values (allFiles inp) st2.hashes st2.duplicates [] td htd
        (by intro kv hkv; exact absurd hkv (by simp))
    constructor
    · rw [heq]
      exact htdvals it hit'
    · exact hne
  · constructor
    · decide
    · decide

theorem output_groups_min2_nonzero_witness :
    2 ≤ (["b", "a"] : List String).length ∧ (1 : Nat) ≠ 0 :=
  output_groups_min2_nonzero.1 pairDir [(1, ["b", "a"])] [(1, 2), (2, 2)] 2
    (by decide) (1, ["b", "a"]) (by simp)

/-! ## C5: descending order and stability of the ranking -/

theorem pairwise_presentation (sizes : List (Digest × Nat)) :
    ∀ l : List (Digest × List String), l.Pairwise (sortRel sizes) →
      (presentation sizes l).Pairwise (fun a b => b.1 ≤ a.1) := by
  intro l
  induction l with
  | nil => intro _; simp [presentation]
  | cons it l ih =>
    intro hp
    rcases hp with _ | ⟨hrel, htail⟩
    unfold presentation
    rw [List.filterMap_cons]
    by_cases h0 : keyOf sizes it = 0
    · simp only [h0, if_pos]
      exact ih htail
    · simp only [if_neg h0]
      refine List.Pairwise.cons ?_ (ih htail)
      intro y hy
      rcases mem_presentation sizes l y hy with ⟨_, it', hit', heq⟩
      rw [heq]
      exact hrel it' hit'

theorem filter_key_orderedInsert (sizes : List (Digest × Nat)) (s : Nat)
    (x : Digest × List String) :
    ∀ l : List (Digest × List String),
      (List.orderedInsert (sortRel sizes) x l).filter
          (fun it => keyOf sizes it == s) =
        (x :: l).filter (fun it => keyOf sizes it == s) := by
  intro l
  induction l with
  | nil => rfl
  | cons b bs ih =>
    unfold List.orderedInsert
    by_cases hr : sortRel sizes x b
    · rw [if_pos hr]
    · rw [if_neg hr]
      have hlt : keyOf sizes x < keyOf sizes b := by
        unfold sortRel at hr
        omega
      by_cases px : keyOf sizes x = s <;> by_cases pb : keyOf sizes b = s
      · omega
      · simp only [List.filter_cons, ih]
        simp [px, pb]
      · simp only [List.filter_cons, ih]
        simp [px, pb]
      · simp only [List.filter_cons, ih]
        simp [px, pb]

theorem filter_key_insertionSort (sizes : List (Digest × Nat)) (s : Nat) :
    ∀ l : List (Digest × List String),
      (List.insertionSort (sortRel sizes) l).filter
          (fun it => keyOf sizes it == s) =
        l.filter (fun it => keyOf sizes it == s) := by
  intro l
  induction l with
  | nil => rfl
  | cons a l ih =>
    show (List.orderedInsert (sortRel sizes) a
        (List.insertionSort (sortRel sizes) l)).filter _ = _
    rw [filter_key_orderedInsert sizes s a (List.insertionSort (sortRel sizes) l)]
    rw [List.filter_cons, List.filter_cons, ih]

theorem presentation_cons_zero (sizes : List (Digest × Nat)) (it : Digest × List String)
    (l : List (Digest × List String)) (h0 : keyOf sizes it = 0) :
    presentation sizes (it :: l) = presentation sizes l := by
  unfold presentation
  rw [List.filterMap_cons]
  simp [h0]

theorem presentation_cons_pos (sizes : List (Digest × Nat)) (it : Digest × List String)
    (l : List (Digest × List String)) (h0 : ¬(keyOf sizes it = 0)) :
    presentation sizes (it :: l) = (keyOf sizes it, it.2) :: presentation sizes l := by
  unfold presentation
  rw [List.filterMap_cons]
  simp [h0]

theorem filter_presentation (sizes : List (Digest × Nat)) (s : Nat) :
    ∀ l : List (Digest × List String),
      (presentation sizes l).filter (fun g => g.1 == s) =
        presentation sizes (l.filter (fun it => keyOf sizes it == s)) := by
  intro l
  induction l with
  | nil => rfl
  | cons it l ih =>
    by_cases h0 : keyOf sizes it = 0
    · rw [presentation_cons_zero sizes it l h0, List.filter_cons]
      by_cases ps : keyOf sizes it = s
      · rw [if_pos (by simp [ps]), presentation_cons_zero sizes it _ h0]
        exact ih
      · rw [if_neg (by simp [ps])]
        exact ih
    · rw [presentation_cons_pos sizes it l h0, List.filter_cons, List.filter_cons]
      by_cases ps : keyOf sizes it = s
      · rw [if_pos (by simp [ps]), if_pos (by simp [ps]),
          presentation_cons_pos sizes it _ h0, ih]
      · rw [if_neg (by simp [ps]), if_neg (by simp [ps])]
        exact ih

/-- C5: the completed scan's group list is sorted by representative size in
descending order, and the sort is stable: for every size, the groups of that
size appear in the same order as in the unsorted `true_duplicates` view
(`presentation sizes td`), i.e. insertion order. -/
theorem groups_sorted_desc_stable (inp : ScanInput) (groups : List (Nat × List String))
    (progress : List (Nat × Nat)) (total : Nat)
    (td : List (Digest × List String)) (sizes : List (Digest × Nat))
    (hscan : scan_directory inp = ScanResult.completed groups progress total)
    (htd : scan_true_duplicates inp = Except.ok td)
    (hsz : compute_file_sizes (allFiles inp) [] td = Except.ok sizes) :
    groups.Pairwise (fun a b => b.1 ≤ a.1) ∧
    ∀ s : Nat, groups.filter (fun g => g.1 == s) =
      (presentation sizes td).filter (fun g => g.1 == s) := by
  unfold scan_directory at hscan
  split at hscan
  · exact absurd hscan (by simp)
  rcases hpre : scan_prehash inp with e | st
  · rw [hpre] at hscan
    exact absurd hscan (by simp)
  simp only [hpre] at hscan
  simp only [htd] at hscan
  simp only [hsz] at hscan
  simp only [ScanResult.completed.injEq] at hscan
  rcases hscan with ⟨h1, _, _⟩
  rw [← h1]
  constructor
  · exact pairwise_presentation sizes _
      (List.sorted_insertionSort (sortRel sizes) td)
  · intro s
    rw [filter_presentation sizes s (List.insertionSort (sortRel sizes) td),
      filter_key_insertionSort sizes s td,
      ← filter_presentation sizes s td]

theorem groups_sorted_desc_stable_witness :
    ([(2, ["d", "c"]), (2, ["f", "e"]), (1, ["b", "a"])] :
        List (Nat × List String)).Pairwise (fun a b => b.1 ≤ a.1) ∧
    ∀ s : Nat, ([(2, ["d", "c"]), (2, ["f", "e"]), (1, ["b", "a"])] :
        List (Nat × List String)).filter (fun g => g.1 == s) =
      (presentation [([7], 1), ([8, 8], 2), ([9, 9], 2)]
        [([7], ["b", "a"]), ([8, 8], ["d", "c"]), ([9, 9], ["f", "e"])]).filter
          (fun g => g.1 == s) :=
  groups_sorted_desc_stable sortDir
    [(2, ["d", "c"]), (2, ["f", "e"]), (1, ["b", "a"])]
    [(1, 6), (2, 6), (3, 6), (4, 6), (5, 6), (6, 6)] 6
    [([7], ["b", "a"]), ([8, 8], ["d", "c"]), ([9, 9], ["f", "e"])]
    [([7], 1), ([8, 8], 2), ([9, 9], 2)]
    (by decide) (by decide) (by decide)

end DupFinder
